import Mathlib

/-!
Shallow embedding of `src/task_one.py` (a small in-memory address book):
validated `Phone` and `Birthday` fields, `Record` (name, phone list, optional
birthday) and `AddressBook` (insertion-ordered mapping from name to record),
together with proofs checking the natural-language specification against it.

Python strings are modelled as Lean `String` (a list of Unicode code points,
matching Python's `len` and indexing semantics).  Python exceptions are
modelled by `PyError`; operations that can raise return `Except PyError _`,
and mutating record/book methods return the post-state paired with
`Option PyError` so that the state visible after a raised exception is
explicit.  `datetime.now()` is modelled by passing `today` as an argument.
-/

set_option autoImplicit false

namespace TaskOne

/-- Python exception classes relevant to the program.  Every `raise` in
`task_one.py` constructs a `ValueError`; the other kinds exist so that
statements about the raised kind are not vacuous. -/
inductive ExnKind where
  | valueError
  | keyError
  | typeError
  deriving DecidableEq, Repr

/-- A raised Python exception: its class and its message. -/
structure PyError where
  kind : ExnKind
  msg : String
  deriving DecidableEq, Repr

instance exceptDecEq {ε α : Type} [DecidableEq ε] [DecidableEq α] : DecidableEq (Except ε α) := fun
  | .error a, .error b => decidable_of_iff (a = b) (by simp)
  | .error _, .ok _ => .isFalse (fun h => Except.noConfusion h)
  | .ok _, .error _ => .isFalse (fun h => Except.noConfusion h)
  | .ok a, .ok b => decidable_of_iff (a = b) (by simp)

/-! ## Phone validation (`Phone.__validate_phone`) -/

/-- Character class of Python's `str.isdigit`: true for characters whose
Unicode `Numeric_Type` is `Digit` or `Decimal`.  This is strictly larger than
ASCII `0`-`9`: it also accepts, e.g., the superscripts U+00B9/U+00B2/U+00B3
and the Arabic-Indic digits U+0660..U+0669.  We model the class over a
representative fragment of Unicode (ASCII digits, the Latin-1 superscripts,
and the Arabic-Indic digit block); characters outside the fragment are
treated as non-digits. -/
def pyCharIsDigit (c : Char) : Bool :=
  c.isDigit || decide (c = '¹' ∨ c = '²' ∨ c = '³' ∨ ('٠' ≤ c ∧ c ≤ '٩'))

/-- Python `str.isdigit`: non-empty and every character is a digit character. -/
def pyStrIsDigit (s : String) : Bool :=
  !s.data.isEmpty && s.data.all pyCharIsDigit

/-- `Phone.__validate_phone` / the `Phone` constructor: length check first,
then `isdigit`; on success the raw string is stored unchanged. -/
def validate_phone (phone : String) : Except PyError String :=
  if phone.length ≠ 10 then
    .error ⟨.valueError, "The phone number must contain 10 digits"⟩
  else if pyStrIsDigit phone = false then
    .error ⟨.valueError, "The phone number must contain only numbers"⟩
  else
    .ok phone

/-! ## Calendar dates (`datetime.date`) -/

/-- A Python `datetime.date`: year, month, day. -/
@[ext]
structure PyDate where
  year : Nat
  month : Nat
  day : Nat
  deriving DecidableEq, Repr

/-- Gregorian leap-year test, as in CPython's `datetime._is_leap`. -/
def isLeap (y : Nat) : Bool :=
  decide (y % 4 = 0 ∧ (y % 100 ≠ 0 ∨ y % 400 = 0))

/-- Days in a month given the leap flag (CPython `_DAYS_IN_MONTH` plus the
February adjustment).  Only used with `1 ≤ m ≤ 12`. -/
def daysInMonthB (leap : Bool) (m : Nat) : Nat :=
  match m with
  | 2 => if leap then 29 else 28
  | 4 => 30
  | 6 => 30
  | 9 => 30
  | 11 => 30
  | _ => 31

/-- CPython `_days_in_month year month`. -/
def daysInMonth (y m : Nat) : Nat := daysInMonthB (isLeap y) m

/-- Validity of a (year, month, day) triple, exactly the checks of
CPython's `_check_date_fields` (`MINYEAR = 1`, `MAXYEAR = 9999`). -/
def validDate (y m d : Nat) : Bool :=
  decide (1 ≤ y ∧ y ≤ 9999 ∧ 1 ≤ m ∧ m ≤ 12 ∧ 1 ≤ d ∧ d ≤ daysInMonth y m)

/-- The `datetime.date(year, month, day)` constructor with CPython's check
order (year, then month, then day) and error messages (the year message's
interpolated value is omitted). -/
def mkDate (y m d : Nat) : Except PyError PyDate :=
  if y < 1 ∨ 9999 < y then .error ⟨.valueError, "year is out of range"⟩
  else if m < 1 ∨ 12 < m then .error ⟨.valueError, "month must be in 1..12"⟩
  else if d < 1 ∨ daysInMonth y m < d then .error ⟨.valueError, "day is out of range for month"⟩
  else .ok ⟨y, m, d⟩

/-- Python `date.__lt__`: lexicographic comparison of (year, month, day). -/
def dateLt (a b : PyDate) : Bool :=
  decide (a.year < b.year ∨
    (a.year = b.year ∧ (a.month < b.month ∨
      (a.month = b.month ∧ a.day < b.day))))

/-- CPython `_DAYS_BEFORE_MONTH` table plus the leap adjustment for months
after February (`_days_before_month`), given the leap flag. -/
def daysBeforeMonthB (leap : Bool) (m : Nat) : Nat :=
  (match m with
   | 1 => 0 | 2 => 31 | 3 => 59 | 4 => 90 | 5 => 120 | 6 => 151
   | 7 => 181 | 8 => 212 | 9 => 243 | 10 => 273 | 11 => 304 | 12 => 334
   | _ => 0)
  + (if 2 < m ∧ leap = true then 1 else 0)

/-- CPython `_days_before_month year month`. -/
def daysBeforeMonth (y m : Nat) : Nat := daysBeforeMonthB (isLeap y) m

/-- CPython `_days_before_year year`: days before January 1st of `year`,
i.e. `(y-1)*365 + (y-1)//4 - (y-1)//100 + (y-1)//400`. -/
def daysBeforeYear (y : Nat) : Nat :=
  (y - 1) * 365 + (y - 1) / 4 - (y - 1) / 100 + (y - 1) / 400

/-- Number of days in a year. -/
def daysInYear (y : Nat) : Nat := if isLeap y then 366 else 365

/-- CPython `date.toordinal`: day number in the proleptic Gregorian
calendar, with 0001-01-01 as day 1. -/
def toOrdinal (a : PyDate) : Nat :=
  daysBeforeYear a.year + daysBeforeMonth a.year a.month + a.day

/-- `(a - b).days` for two Python dates: the signed ordinal difference. -/
def dateSubDays (a b : PyDate) : Int :=
  (toOrdinal a : Int) - (toOrdinal b : Int)

/-! ## Birthday parsing (`Birthday.__validate_birthday`) -/

/-- Character class of the regex `\d` in Python 3 (Unicode matching, the
default): any Unicode DECIMAL digit, category `Nd`.  This is smaller than
`str.isdigit` (it excludes, e.g., the superscripts) but larger than ASCII.
As with `pyCharIsDigit`, we model the class over a representative fragment
of Unicode — the ASCII digits and the Arabic-Indic digit block
U+0660..U+0669 — treating characters outside the fragment as
non-digits. -/
def pyCharIsDecimal (c : Char) : Bool :=
  c.isDigit || decide ('٠' ≤ c ∧ c ≤ '٩')

/-- The numeric value Python's `int` assigns to one decimal digit
character of the fragment (U+0660 = 1632 is the Arabic-Indic zero). -/
def pyDigitVal (c : Char) : Nat :=
  if c.isDigit then c.toNat - 48 else c.toNat - 1632

/-- Python `int` on a matched group: each character is a Unicode decimal
digit (of the fragment), and `int` reads them positionally. -/
def strToNat (cs : List Char) : Nat :=
  cs.foldl (fun a c => a * 10 + pyDigitVal c) 0

/-- Split a character list at every `'.'` (the literal separator of the
`"%d.%m.%Y"` format).  No field pattern of the format can match a `'.'`,
and each field is followed in the regex by a literal `\.` or the anchored
end, so a string matches CPython's whole-string regex exactly when this
split yields three parts, each matching its field's pattern in full. -/
def splitOnDot : List Char → List (List Char)
  | [] => [[]]
  | c :: rest =>
    if c = '.' then [] :: splitOnDot rest
    else
      match splitOnDot rest with
      | [] => [[c]]
      | h :: t => (c :: h) :: t

/-- The `%d` field of CPython `_strptime`'s regex, the alternation
`3[01]|[12]\d|0[1-9]|[1-9]`: one or two characters.  The bracket classes
and literals are ASCII, while `\d` — reachable only as the second
character after an ASCII `1` or `2` — matches any Unicode decimal digit:
`"1٢"` is a valid day (12) but `"٢٢"` is not. -/
def dayField (cs : List Char) : Bool :=
  match cs with
  | [c] => decide ('1' ≤ c ∧ c ≤ '9')
  | [c1, c2] =>
    decide (c1 = '3' ∧ (c2 = '0' ∨ c2 = '1'))
      || (decide (c1 = '1' ∨ c1 = '2') && pyCharIsDecimal c2)
      || decide (c1 = '0' ∧ '1' ≤ c2 ∧ c2 ≤ '9')
  | _ => false

/-- The `%m` field of CPython `_strptime`'s regex, the alternation
`1[0-2]|0[1-9]|[1-9]`: one or two characters, all ASCII digits (no `\d`
occurs in this pattern, so the month accepts no non-ASCII digit). -/
def monthField (cs : List Char) : Bool :=
  match cs with
  | [c] => decide ('1' ≤ c ∧ c ≤ '9')
  | [c1, c2] =>
    decide (c1 = '1' ∧ '0' ≤ c2 ∧ c2 ≤ '2')
      || decide (c1 = '0' ∧ '1' ≤ c2 ∧ c2 ≤ '9')
  | _ => false

/-- The `%Y` field of CPython `_strptime`'s regex, `\d\d\d\d`: exactly
four Unicode decimal digits. -/
def yearField (cs : List Char) : Bool :=
  decide (cs.length = 4) && cs.all pyCharIsDecimal

/-- `datetime.strptime(s, "%d.%m.%Y")` up to (but not including) the
`date` constructor's range check: the whole string must decompose as
day `.` month `.` year with the day matching `%d` (one or two characters —
zero padding is NOT required — with a Unicode decimal digit allowed in
second position after `1` or `2`), the month matching `%m` (ASCII only)
and the year matching `%Y` (four Unicode decimal digits); `int()` then
reads the matched groups.  Returns `(day, month, year)`. -/
def parse_ddmmyyyy (s : String) : Option (Nat × Nat × Nat) :=
  match splitOnDot s.data with
  | [ds, ms, ys] =>
    if dayField ds && monthField ms && yearField ys
    then some (strToNat ds, strToNat ms, strToNat ys)
    else none
  | _ => none

/-- `Birthday.__validate_birthday`: `strptime(birthday, "%d.%m.%Y").date()`
with every `ValueError` (both a regex mismatch and a failing `date`
constructor) replaced by the fixed format message. -/
def validate_birthday (s : String) : Except PyError PyDate :=
  match parse_ddmmyyyy s with
  | none => .error ⟨.valueError, "Invalid date format. Use DD.MM.YYYY"⟩
  | some (d, m, y) =>
    match mkDate y m d with
    | .error _ => .error ⟨.valueError, "Invalid date format. Use DD.MM.YYYY"⟩
    | .ok dt => .ok dt

/-! ## Date formatting (`strftime("%d.%m.%Y")`) -/

/-- The ASCII digit character of a value below ten. -/
def digitChar (n : Nat) : Char :=
  match n with
  | 0 => '0' | 1 => '1' | 2 => '2' | 3 => '3' | 4 => '4'
  | 5 => '5' | 6 => '6' | 7 => '7' | 8 => '8' | _ => '9'

/-- Unpadded decimal rendering of a natural number (the digits of `n`). -/
def natToChars (n : Nat) : List Char :=
  if n < 10 then [digitChar n]
  else natToChars (n / 10) ++ [digitChar (n % 10)]
termination_by n
decreasing_by exact Nat.div_lt_self (by omega) (by omega)

/-- `strftime` `%d`/`%m`: decimal, zero-padded to width 2. -/
def pad2 (n : Nat) : List Char :=
  if n < 10 then ['0', digitChar n] else natToChars n

/-- `date.strftime("%d.%m.%Y")` as used by `Record.__str__`: zero-padded
two-digit day and month; `%Y` is the year as an unpadded decimal (glibc
semantics), which has four digits exactly when `1000 ≤ year ≤ 9999`. -/
def formatDate (dt : PyDate) : String :=
  String.mk (pad2 dt.day ++ '.' :: (pad2 dt.month ++ '.' :: natToChars dt.year))

/-! ## Records -/

/-- A `Record`: one name, an insertion-ordered list of validated phone
strings (each the stored `value` of a `Phone` object), and an optional
birthday date (the stored `value` of a `Birthday` object). -/
structure Record where
  name : String
  phones : List String
  birthday : Option PyDate
  deriving DecidableEq, Repr

/-- The `Record(name)` constructor: empty phone list, no birthday. -/
def mkRecord (name : String) : Record := ⟨name, [], none⟩

/-- `Record.find_phone`: first phone whose stored value equals `phone`,
else `ValueError("Phone number not found.")`. -/
def Record.find_phone (r : Record) (phone : String) : Except PyError String :=
  match r.phones.find? (fun p => p == phone) with
  | some p => .ok p
  | none => .error ⟨.valueError, "Phone number not found."⟩

/-- `Record.add_phone`: validate via the `Phone` constructor, then append.
Returns the record state after the call together with the raised exception,
if any. -/
def Record.add_phone (r : Record) (phone : String) : Record × Option PyError :=
  match validate_phone phone with
  | .error e => (r, some e)
  | .ok p => ({ r with phones := r.phones ++ [p] }, none)

/-- `Record.remove_phone`: `find_phone` (may raise), then remove that
object, i.e. the first value match. -/
def Record.remove_phone (r : Record) (phone : String) : Record × Option PyError :=
  match r.phones.find? (fun p => p == phone) with
  | some _ => ({ r with phones := r.phones.erase phone }, none)
  | none => (r, some ⟨.valueError, "Phone number not found."⟩)

/-- `Record.edit_phone`: `find_phone old` (may raise), validate `new` via
the `Phone` constructor (may raise), then replace in place at the found
object's index, i.e. at the first index whose value equals `old`. -/
def Record.edit_phone (r : Record) (old new : String) : Record × Option PyError :=
  match r.phones.find? (fun p => p == old) with
  | none => (r, some ⟨.valueError, "Phone number not found."⟩)
  | some _ =>
    match validate_phone new with
    | .error e => (r, some e)
    | .ok p =>
      ({ r with phones := r.phones.set (r.phones.findIdx (fun q => q == old)) p }, none)

/-- `Record.add_birthday`: validate via the `Birthday` constructor (may
raise), then overwrite the stored birthday. -/
def Record.add_birthday (r : Record) (birthday : String) : Record × Option PyError :=
  match validate_birthday birthday with
  | .error e => (r, some e)
  | .ok b => ({ r with birthday := some b }, none)

/-- `Record.days_to_birthday`, with `datetime.now().date()` passed in as
`today`: `None` if no birthday; otherwise substitute today's year into the
stored date (`date.replace`, which re-validates and may raise), advance to
next year if the candidate is strictly before today (again re-validating —
this substitution may also raise, e.g. for a Feb 29 birthday when
`today.year + 1` is not a leap year), and return the ordinal difference. -/
def Record.days_to_birthday (r : Record) (today : PyDate) : Except PyError (Option Int) :=
  match r.birthday with
  | none => .ok none
  | some b =>
    match mkDate today.year b.month b.day with
    | .error e => .error e
    | .ok nb =>
      if dateLt nb today then
        match mkDate (today.year + 1) nb.month nb.day with
        | .error e => .error e
        | .ok nb2 => .ok (some (dateSubDays nb2 today))
      else .ok (some (dateSubDays nb today))

/-- `Record.__str__`. -/
def Record.render (r : Record) : String :=
  "Contact name: " ++ r.name ++ ", phones: " ++ String.intercalate "; " r.phones
    ++ ", birthday: "
    ++ (match r.birthday with
        | some dt => formatDate dt
        | none => "No birthday")

/-! ## The address book (`AddressBook`, a `UserDict`) -/

/-- An `AddressBook`: a Python dict from name to record, modelled as an
insertion-ordered association list whose keys are unique (Python dict
semantics). -/
structure AddressBook where
  data : List (String × Record)
  deriving DecidableEq, Repr

/-- Python dict assignment `data[k] = v`: overwrite in place if the key is
present (keeping its position, as dicts do), else append. -/
def dictSet (l : List (String × Record)) (k : String) (v : Record) : List (String × Record) :=
  match l with
  | [] => [(k, v)]
  | (k1, v1) :: rest => if k1 == k then (k, v) :: rest else (k1, v1) :: dictSet rest k v

/-- `AddressBook.add_record`. -/
def AddressBook.add_record (book : AddressBook) (r : Record) : AddressBook :=
  ⟨dictSet book.data r.name r⟩

/-- `AddressBook.find`: the stored record, else
`ValueError("Record not found.")`. -/
def AddressBook.find (book : AddressBook) (name : String) : Except PyError Record :=
  match book.data.find? (fun p => p.1 == name) with
  | some p => .ok p.2
  | none => .error ⟨.valueError, "Record not found."⟩

/-- `AddressBook.delete`: membership test, then `del`; else
`ValueError("Record not found.")`.  Returns post-state and exception. -/
def AddressBook.delete (book : AddressBook) (name : String) : AddressBook × Option PyError :=
  if book.data.any (fun p => p.1 == name) then
    (⟨book.data.eraseP (fun p => p.1 == name)⟩, none)
  else
    (book, some ⟨.valueError, "Record not found."⟩)

/-- The loop body accumulation of `AddressBook.get_upcoming_birthdays`:
iterate the records in insertion order; for each record with a birthday
compute `days_to_birthday` (an exception aborts the whole call) and keep
the record when the day count is at most `days`. -/
def upcoming_go (today : PyDate) (days : Int) : List (String × Record) → Except PyError (List Record)
  | [] => .ok []
  | (_, r) :: rest =>
    if r.birthday.isSome then
      match r.days_to_birthday today with
      | .error e => .error e
      | .ok none => upcoming_go today days rest
      | .ok (some n) =>
        if n ≤ days then
          match upcoming_go today days rest with
          | .error e => .error e
          | .ok l => .ok (r :: l)
        else upcoming_go today days rest
    else upcoming_go today days rest

/-- `AddressBook.get_upcoming_birthdays(days)`, with `datetime.now().date()`
passed in as `today`. -/
def AddressBook.get_upcoming_birthdays (book : AddressBook) (today : PyDate) (days : Int) :
    Except PyError (List Record) :=
  upcoming_go today days book.data

/-- The inclusion test of `get_upcoming_birthdays`, as a predicate on one
record: it has a birthday whose day count is defined and at most `days`. -/
def upcomingPred (today : PyDate) (days : Int) (r : Record) : Bool :=
  match r.days_to_birthday today with
  | .ok (some n) => decide (n ≤ days)
  | _ => false

/-! ## Basic facts about `mkDate` -/

theorem mkDate_of_valid {y m d : Nat} (h : validDate y m d = true) :
    mkDate y m d = .ok ⟨y, m, d⟩ := by
  simp only [validDate, decide_eq_true_eq] at h
  unfold mkDate
  rw [if_neg (by omega), if_neg (by omega), if_neg (by omega)]

theorem valid_of_mkDate_ok {y m d : Nat} {dt : PyDate} (h : mkDate y m d = .ok dt) :
    validDate y m d = true ∧ dt = ⟨y, m, d⟩ := by
  unfold mkDate at h
  split_ifs at h with h1 h2 h3
  refine ⟨?_, (Except.ok.inj h).symm⟩
  simp only [validDate, decide_eq_true_eq]
  omega

theorem mkDate_error_kind {y m d : Nat} {e : PyError} (h : mkDate y m d = .error e) :
    e.kind = ExnKind.valueError := by
  unfold mkDate at h
  split_ifs at h <;> cases Except.error.inj h <;> rfl

/-! ## Ordinal arithmetic: `toOrdinal` is strictly monotone in the date order -/

theorem daysBeforeYear_succ (n : Nat) :
    daysBeforeYear (n + 2) = daysBeforeYear (n + 1) + daysInYear (n + 1) := by
  have h4 := Nat.succ_div n 4
  have h100 := Nat.succ_div n 100
  have h400 := Nat.succ_div n 400
  have hba : n / 100 ≤ n / 4 := Nat.div_le_div_left (by omega) (by omega)
  by_cases d4 : (4 : Nat) ∣ (n + 1)
  · by_cases d100 : (100 : Nat) ∣ (n + 1)
    · by_cases d400 : (400 : Nat) ∣ (n + 1)
      · have hIs : isLeap (n + 1) = true := by
          unfold isLeap; exact decide_eq_true (by omega)
        have hDIY : daysInYear (n + 1) = 366 := by unfold daysInYear; rw [hIs]; rfl
        rw [hDIY, if_pos d4] at *
        rw [if_pos d100, if_pos d400] at *
        show (n + 1) * 365 + (n + 1) / 4 - (n + 1) / 100 + (n + 1) / 400
          = n * 365 + n / 4 - n / 100 + n / 400 + 366
        omega
      · have hIs : isLeap (n + 1) = false := by
          unfold isLeap; exact decide_eq_false (by omega)
        have hDIY : daysInYear (n + 1) = 365 := by unfold daysInYear; rw [hIs]; rfl
        rw [hDIY] at *
        rw [if_pos d4, if_pos d100, if_neg d400] at *
        show (n + 1) * 365 + (n + 1) / 4 - (n + 1) / 100 + (n + 1) / 400
          = n * 365 + n / 4 - n / 100 + n / 400 + 365
        omega
    · by_cases d400 : (400 : Nat) ∣ (n + 1)
      · exact absurd (dvd_trans (show (100 : Nat) ∣ 400 by norm_num) d400) d100
      · have hIs : isLeap (n + 1) = true := by
          unfold isLeap; exact decide_eq_true (by omega)
        have hDIY : daysInYear (n + 1) = 366 := by unfold daysInYear; rw [hIs]; rfl
        rw [hDIY] at *
        rw [if_pos d4, if_neg d100, if_neg d400] at *
        show (n + 1) * 365 + (n + 1) / 4 - (n + 1) / 100 + (n + 1) / 400
          = n * 365 + n / 4 - n / 100 + n / 400 + 366
        omega
  · have d100 : ¬ (100 : Nat) ∣ (n + 1) :=
      fun h => d4 (dvd_trans (show (4 : Nat) ∣ 100 by norm_num) h)
    have d400 : ¬ (400 : Nat) ∣ (n + 1) :=
      fun h => d4 (dvd_trans (show (4 : Nat) ∣ 400 by norm_num) h)
    have hIs : isLeap (n + 1) = false := by
      unfold isLeap; exact decide_eq_false (by omega)
    have hDIY : daysInYear (n + 1) = 365 := by unfold daysInYear; rw [hIs]; rfl
    rw [hDIY] at *
    rw [if_neg d4, if_neg d100, if_neg d400] at *
    show (n + 1) * 365 + (n + 1) / 4 - (n + 1) / 100 + (n + 1) / 400
      = n * 365 + n / 4 - n / 100 + n / 400 + 365
    omega

theorem daysBeforeYear_add_le {y1 : Nat} (h1 : 1 ≤ y1) :
    ∀ {y2 : Nat}, y1 < y2 → daysBeforeYear y1 + daysInYear y1 ≤ daysBeforeYear y2 := by
  intro y2
  induction y2 with
  | zero => omega
  | succ y ih =>
    intro hy
    obtain ⟨k, rfl⟩ : ∃ k, y1 = k + 1 := ⟨y1 - 1, by omega⟩
    rcases Nat.lt_or_ge (k + 1) y with hlt | hge
    · obtain ⟨j, rfl⟩ : ∃ j, y = j + 1 := ⟨y - 1, by omega⟩
      calc daysBeforeYear (k + 1) + daysInYear (k + 1) ≤ daysBeforeYear (j + 1) := ih hlt
        _ ≤ daysBeforeYear (j + 2) := by rw [daysBeforeYear_succ]; omega
    · have hy2 : y = k + 1 := by omega
      subst hy2
      exact Nat.le_of_eq (daysBeforeYear_succ k).symm

theorem daysBeforeMonth_add_le (y : Nat) :
    ∀ m, m < 13 → daysBeforeMonth y m + daysInMonth y m ≤ daysInYear y := by
  unfold daysBeforeMonth daysInMonth daysInYear
  cases isLeap y <;> decide

theorem daysBeforeMonth_step_le (y : Nat) :
    ∀ m1, 1 ≤ m1 → m1 < 13 → ∀ m2, m2 < 13 → m1 < m2 →
      daysBeforeMonth y m1 + daysInMonth y m1 ≤ daysBeforeMonth y m2 := by
  unfold daysBeforeMonth daysInMonth
  cases isLeap y <;> decide

theorem toOrdinal_lt_of_dateLt {a b : PyDate}
    (ha : validDate a.year a.month a.day = true)
    (hb : validDate b.year b.month b.day = true)
    (hlt : dateLt a b = true) : toOrdinal a < toOrdinal b := by
  obtain ⟨y1, m1, d1⟩ := a
  obtain ⟨y2, m2, d2⟩ := b
  simp only [validDate, decide_eq_true_eq] at ha hb
  simp only [dateLt, decide_eq_true_eq] at hlt
  simp only [toOrdinal]
  obtain ⟨hy1lo, hy1hi, hm1lo, hm1hi, hd1lo, hd1hi⟩ := ha
  obtain ⟨hy2lo, hy2hi, hm2lo, hm2hi, hd2lo, hd2hi⟩ := hb
  rcases hlt with hy | ⟨hy, hm | ⟨hm, hd⟩⟩
  · have h1 := daysBeforeMonth_add_le y1 m1 (by omega)
    have h2 := daysBeforeYear_add_le (by omega) hy
    omega
  · subst hy
    have h1 := daysBeforeMonth_step_le y1 m1 (by omega) (by omega) m2 (by omega) hm
    omega
  · subst hy; subst hm
    omega

theorem dateLt_total {a b : PyDate} (h : dateLt b a = false) :
    a = b ∨ dateLt a b = true := by
  obtain ⟨y1, m1, d1⟩ := a
  obtain ⟨y2, m2, d2⟩ := b
  simp only [dateLt, decide_eq_false_iff_not] at h
  simp only [dateLt, PyDate.mk.injEq, decide_eq_true_eq]
  omega

theorem toOrdinal_le_of_not_dateLt {a b : PyDate}
    (ha : validDate a.year a.month a.day = true)
    (hb : validDate b.year b.month b.day = true)
    (h : dateLt b a = false) : toOrdinal a ≤ toOrdinal b := by
  rcases dateLt_total h with rfl | hlt
  · exact Nat.le_refl _
  · exact Nat.le_of_lt (toOrdinal_lt_of_dateLt ha hb hlt)

theorem toOrdinal_inj {a b : PyDate}
    (ha : validDate a.year a.month a.day = true)
    (hb : validDate b.year b.month b.day = true)
    (h : toOrdinal a = toOrdinal b) : a = b := by
  cases hba : dateLt b a
  · rcases dateLt_total hba with rfl | hlt
    · rfl
    · exact absurd h (by have := toOrdinal_lt_of_dateLt ha hb hlt; omega)
  · exact absurd h (by have := toOrdinal_lt_of_dateLt hb ha hba; omega)

/-! ## Claim C1: phone validation -/

/-- C1 (amended): `Phone(s)` fails with the length-related `ValueError`
whenever `s` does not have exactly 10 characters — this check comes first,
so a too-short non-digit string reports the length error; with exactly 10
characters it fails with the digits-related `ValueError` when some
character is not accepted by Python's `str.isdigit` (a class that also
contains non-ASCII digit characters), and succeeds otherwise, storing `s`
unchanged. -/
theorem phone_validation_spec (s : String) :
    (s.length ≠ 10 →
      validate_phone s = .error ⟨.valueError, "The phone number must contain 10 digits"⟩) ∧
    (s.length = 10 → pyStrIsDigit s = false →
      validate_phone s = .error ⟨.valueError, "The phone number must contain only numbers"⟩) ∧
    (s.length = 10 → pyStrIsDigit s = true → validate_phone s = .ok s) := by
  refine ⟨fun h => ?_, fun h1 h2 => ?_, fun h1 h2 => ?_⟩ <;>
    simp [validate_phone, *]

/-- Witness for `phone_validation_spec`: a short string reports the length
error, a 10-character string with letters reports the digits error, and a
10-digit string is stored unchanged. -/
theorem phone_validation_spec_witness :
    validate_phone "123" = .error ⟨.valueError, "The phone number must contain 10 digits"⟩ ∧
    validate_phone "12345678ab" = .error ⟨.valueError, "The phone number must contain only numbers"⟩ ∧
    validate_phone "0937777777" = .ok "0937777777" :=
  ⟨(phone_validation_spec "123").1 (by decide),
   (phone_validation_spec "12345678ab").2.1 (by decide) (by decide),
   (phone_validation_spec "0937777777").2.2 (by decide) (by decide)⟩

/-- C1 counterexample: the 10-character string made of SUPERSCRIPT ONE
(U+00B9) characters is accepted by the `Phone` constructor — Python's
`str.isdigit` classifies U+00B9 as a digit — even though none of its
characters is an ASCII decimal digit, so `Phone(s)` does not succeed *only*
for strings of 10 ASCII decimal digits, and this 10-character string with
non-(ASCII-decimal-digit) characters does not fail with the digits-related
error. -/
theorem phone_validation_ascii_counterexample :
    validate_phone "¹¹¹¹¹¹¹¹¹¹" = .ok "¹¹¹¹¹¹¹¹¹¹" ∧
    "¹¹¹¹¹¹¹¹¹¹".data.all Char.isDigit = false :=
  ⟨rfl, rfl⟩

/-! ## Claim C2: birthday validation -/

/-- C2 (amended): every `Birthday` construction failure carries the
`ValueError` message naming the expected `DD.MM.YYYY` format, and
construction succeeds exactly when the input matches Python's
`strptime("%d.%m.%Y")` pattern — a day matching `3[01]|[12]\d|0[1-9]|[1-9]`
(one OR two characters: zero padding is not required; the listed digits
are ASCII, while `\d` lets a Unicode decimal digit stand as the second
character after `1` or `2`), a month matching `1[0-2]|0[1-9]|[1-9]`
(ASCII only), and a year of exactly four Unicode decimal digits — and the
numbers `int()` reads from those groups form a valid calendar date; on
success the stored value is that calendar date (no time-of-day
component). -/
theorem birthday_validation_spec (s : String) :
    (∀ e, validate_birthday s = .error e →
      e = ⟨.valueError, "Invalid date format. Use DD.MM.YYYY"⟩) ∧
    (∀ dt, validate_birthday s = .ok dt ↔
      (parse_ddmmyyyy s = some (dt.day, dt.month, dt.year) ∧
       validDate dt.year dt.month dt.day = true)) := by
  constructor
  · intro e he
    unfold validate_birthday at he
    rcases hp : parse_ddmmyyyy s with _ | ⟨d, m, y⟩ <;> simp only [hp] at he
    · exact (Except.error.inj he).symm
    · rcases hm : mkDate y m d with e1 | dt1 <;> simp only [hm] at he
      · exact (Except.error.inj he).symm
      · exact absurd he (by simp)
  · intro dt
    constructor
    · intro hok
      unfold validate_birthday at hok
      rcases hp : parse_ddmmyyyy s with _ | ⟨d, m, y⟩ <;> simp only [hp] at hok
      · exact absurd hok (by simp)
      · rcases hm : mkDate y m d with e1 | dt1 <;> simp only [hm] at hok
        · exact absurd hok (by simp)
        · cases Except.ok.inj hok
          obtain ⟨hv, rfl⟩ := valid_of_mkDate_ok hm
          exact ⟨rfl, hv⟩
    · rintro ⟨hp, hv⟩
      unfold validate_birthday
      simp only [hp, mkDate_of_valid hv]

/-- Witness for `birthday_validation_spec`: `"25.12.1990"` parses to
December 25th, 1990; the Unicode-digit inputs `"1٢.01.2000"` (Arabic-Indic
TWO as the day's second character) and `"01.01.١٩٩٩"` (all-Arabic-Indic
year) parse as CPython does; and a rejected input (February 31st — and
likewise `"٢٢.01.2000"`, whose day starts with a non-ASCII digit) reports
the format message. -/
theorem birthday_validation_spec_witness :
    validate_birthday "25.12.1990" = .ok ⟨1990, 12, 25⟩ ∧
    validate_birthday "1٢.01.2000" = .ok ⟨2000, 1, 12⟩ ∧
    validate_birthday "01.01.١٩٩٩" = .ok ⟨1999, 1, 1⟩ ∧
    (⟨.valueError, "Invalid date format. Use DD.MM.YYYY"⟩ : PyError)
      = ⟨.valueError, "Invalid date format. Use DD.MM.YYYY"⟩ :=
  ⟨((birthday_validation_spec "25.12.1990").2 ⟨1990, 12, 25⟩).mpr ⟨rfl, rfl⟩,
   ((birthday_validation_spec "1٢.01.2000").2 ⟨2000, 1, 12⟩).mpr ⟨rfl, rfl⟩,
   ((birthday_validation_spec "01.01.١٩٩٩").2 ⟨1999, 1, 1⟩).mpr ⟨rfl, rfl⟩,
   (birthday_validation_spec "٢٢.01.2000").1 _ rfl⟩

/-- C2 counterexample: `"1.1.2000"` has a one-digit day and a one-digit
month, so by the claim it should fail construction; Python's `strptime`
`%d`/`%m` patterns accept one or two digits, and construction succeeds. -/
theorem birthday_single_digit_counterexample :
    validate_birthday "1.1.2000" = .ok ⟨2000, 1, 1⟩ := rfl

/-! ## Claim C3: days to the next birthday -/

/-- C3 (amended): with a birthday set, whenever substituting today's year
into the stored month/day yields a valid date, `days_to_birthday` returns:
the non-negative day count to that candidate when the candidate is not
strictly before today — zero exactly when the stored month/day equals
today's; and, when the candidate is strictly before today AND the stored
month/day is also valid in the next year (the Feb-29 edge the code does
not handle), the non-negative day count to the candidate advanced one
year.  With no birthday set it returns `None`. -/
theorem days_to_birthday_spec (r : Record) (today b : PyDate)
    (hb : r.birthday = some b)
    (htoday : validDate today.year today.month today.day = true)
    (hcand : validDate today.year b.month b.day = true) :
    (∀ s : Record, s.birthday = none → s.days_to_birthday today = .ok none) ∧
    (dateLt ⟨today.year, b.month, b.day⟩ today = false →
      r.days_to_birthday today = .ok (some (dateSubDays ⟨today.year, b.month, b.day⟩ today)) ∧
      0 ≤ dateSubDays ⟨today.year, b.month, b.day⟩ today ∧
      (dateSubDays ⟨today.year, b.month, b.day⟩ today = 0 ↔
        (b.month = today.month ∧ b.day = today.day))) ∧
    (dateLt ⟨today.year, b.month, b.day⟩ today = true →
      validDate (today.year + 1) b.month b.day = true →
      r.days_to_birthday today
        = .ok (some (dateSubDays ⟨today.year + 1, b.month, b.day⟩ today)) ∧
      0 ≤ dateSubDays ⟨today.year + 1, b.month, b.day⟩ today) := by
  refine ⟨fun s hs => ?_, fun hlt => ?_, fun hlt hcand2 => ?_⟩
  · simp only [Record.days_to_birthday, hs]
  · have hle : toOrdinal today ≤ toOrdinal ⟨today.year, b.month, b.day⟩ :=
      toOrdinal_le_of_not_dateLt htoday hcand hlt
    refine ⟨?_, by unfold dateSubDays; omega, ?_, ?_⟩
    · simp only [Record.days_to_birthday, hb, mkDate_of_valid hcand]
      rw [if_neg (by simp [hlt])]
    · intro h0
      have hEq : toOrdinal ⟨today.year, b.month, b.day⟩ = toOrdinal today := by
        unfold dateSubDays at h0; omega
      have hDates : (⟨today.year, b.month, b.day⟩ : PyDate) = today :=
        toOrdinal_inj hcand htoday hEq
      have h1 : b.month = today.month := by rw [← hDates]
      have h2 : b.day = today.day := by rw [← hDates]
      exact ⟨h1, h2⟩
    · rintro ⟨hm, hd⟩
      have hDates : (⟨today.year, b.month, b.day⟩ : PyDate) = today := by
        rw [hm, hd]
      rw [hDates]
      unfold dateSubDays; omega
  · have hdlt : dateLt today ⟨today.year + 1, b.month, b.day⟩ = true := by
      unfold dateLt
      exact decide_eq_true (Or.inl (Nat.lt_succ_self _))
    have hlt2 : toOrdinal today < toOrdinal ⟨today.year + 1, b.month, b.day⟩ :=
      toOrdinal_lt_of_dateLt htoday hcand2 hdlt
    refine ⟨?_, by unfold dateSubDays; omega⟩
    simp only [Record.days_to_birthday, hb, mkDate_of_valid hcand]
    rw [if_pos hlt]
    simp only [mkDate_of_valid hcand2]

/-- Witness for `days_to_birthday_spec`: a December 25th birthday seen from
January 10th (candidate not yet passed), a January 5th birthday seen from
June 1st (candidate passed, advanced one year), and a record without a
birthday. -/
theorem days_to_birthday_spec_witness :
    (Record.mk "John" [] (some ⟨1990, 12, 25⟩)).days_to_birthday ⟨2026, 1, 10⟩
      = .ok (some (dateSubDays ⟨2026, 12, 25⟩ ⟨2026, 1, 10⟩)) ∧
    (Record.mk "Jane" [] (some ⟨1995, 1, 5⟩)).days_to_birthday ⟨2026, 6, 1⟩
      = .ok (some (dateSubDays ⟨2027, 1, 5⟩ ⟨2026, 6, 1⟩)) ∧
    (mkRecord "Empty").days_to_birthday ⟨2026, 1, 10⟩ = .ok none := by
  refine ⟨?_, ?_, ?_⟩
  · exact ((days_to_birthday_spec (Record.mk "John" [] (some ⟨1990, 12, 25⟩)) ⟨2026, 1, 10⟩
      ⟨1990, 12, 25⟩ rfl (by decide) (by decide)).2.1 (by decide)).1
  · exact ((days_to_birthday_spec (Record.mk "Jane" [] (some ⟨1995, 1, 5⟩)) ⟨2026, 6, 1⟩
      ⟨1995, 1, 5⟩ rfl (by decide) (by decide)).2.2 (by decide) (by decide)).1
  · exact (days_to_birthday_spec (Record.mk "Jane" [] (some ⟨1995, 1, 5⟩)) ⟨2026, 1, 10⟩
      ⟨1995, 1, 5⟩ rfl (by decide) (by decide)).1 (mkRecord "Empty") rfl

/-- C3 counterexample: a February 29th birthday with `today` = March 1st of
the leap year 2024.  Combining the stored month/day with today's year gives
the valid date 2024-02-29 (the claim's hypothesis holds), that candidate is
strictly before today, and the code then substitutes year 2025 — an invalid
date — so the call raises a `ValueError` instead of returning the claimed
non-negative integer. -/
theorem days_to_birthday_feb29_counterexample :
    validDate 2024 2 29 = true ∧
    (Record.mk "Leap" [] (some ⟨1992, 2, 29⟩)).days_to_birthday ⟨2024, 3, 1⟩
      = .error ⟨.valueError, "day is out of range for month"⟩ :=
  ⟨by decide, rfl⟩

/-- Any day count actually returned by `days_to_birthday` for a valid
`today` is non-negative. -/
theorem days_to_birthday_nonneg {r : Record} {today : PyDate} {n : Int}
    (htoday : validDate today.year today.month today.day = true)
    (h : r.days_to_birthday today = .ok (some n)) : 0 ≤ n := by
  unfold Record.days_to_birthday at h
  rcases hb : r.birthday with _ | b <;> simp only [hb] at h
  · simp at h
  · rcases hm : mkDate today.year b.month b.day with e | nb <;> simp only [hm] at h
    · simp at h
    · obtain ⟨hv, rfl⟩ := valid_of_mkDate_ok hm
      by_cases hlt : dateLt ⟨today.year, b.month, b.day⟩ today = true
      · rw [if_pos hlt] at h
        rcases hm2 : mkDate (today.year + 1) b.month b.day with e2 | nb2 <;>
          simp only [hm2] at h
        · simp at h
        · obtain ⟨hv2, rfl⟩ := valid_of_mkDate_ok hm2
          have hn := Option.some.inj (Except.ok.inj h)
          have hdlt : dateLt today ⟨today.year + 1, b.month, b.day⟩ = true := by
            unfold dateLt
            exact decide_eq_true (Or.inl (Nat.lt_succ_self _))
          have hlt2 := toOrdinal_lt_of_dateLt htoday hv2 hdlt
          rw [← hn]; unfold dateSubDays; omega
      · rw [if_neg hlt] at h
        have hn := Option.some.inj (Except.ok.inj h)
        have hlt2 : dateLt ⟨today.year, b.month, b.day⟩ today = false := by
          revert hlt; cases dateLt (⟨today.year, b.month, b.day⟩ : PyDate) today <;> simp
        have hle := toOrdinal_le_of_not_dateLt htoday hv hlt2
        rw [← hn]; unfold dateSubDays; omega

/-! ## Claim C4: the upcoming-birthdays query -/

theorem upcomingPred_true {today : PyDate} {days : Int} {r : Record}
    (h : upcomingPred today days r = true) :
    ∃ n : Int, r.days_to_birthday today = .ok (some n) ∧ n ≤ days := by
  unfold upcomingPred at h
  rcases hd : r.days_to_birthday today with e | v <;> simp only [hd] at h
  · cases h
  · rcases v with _ | n
    · cases h
    · exact ⟨n, rfl, of_decide_eq_true h⟩

theorem upcoming_go_spec (today : PyDate) (days : Int) :
    ∀ l : List (String × Record),
      (∀ p ∈ l, ∃ v, (p.2).days_to_birthday today = .ok v) →
      upcoming_go today days l
        = .ok ((l.filter (fun p => upcomingPred today days p.2)).map Prod.snd) := by
  intro l
  induction l with
  | nil => intro _; rfl
  | cons hd tl ih =>
    intro hall
    obtain ⟨nm, r⟩ := hd
    obtain ⟨v, hv⟩ := hall (nm, r) (List.mem_cons_self _ _)
    have htl := ih (fun p hp => hall p (List.mem_cons_of_mem _ hp))
    simp only [upcoming_go, List.filter_cons]
    rcases hbs : r.birthday with _ | bd
    · have hdays : r.days_to_birthday today = .ok none := by
        simp only [Record.days_to_birthday, hbs]
      have hpred : upcomingPred today days r = false := by
        simp only [upcomingPred, hdays]
      simp only [hbs, Option.isSome_none, Bool.false_eq_true, if_false, hpred, htl]
    · rcases v with _ | n
      · have hpred : upcomingPred today days r = false := by
          simp only [upcomingPred, hv]
        simp only [hbs, Option.isSome_some, if_true, hv, hpred, Bool.false_eq_true,
          if_false, htl]
      · have hpred : upcomingPred today days r = decide (n ≤ days) := by
          simp only [upcomingPred, hv]
        by_cases hn : n ≤ days
        · have hpt : upcomingPred today days r = true := by
            rw [hpred]; exact decide_eq_true hn
          simp only [hbs, Option.isSome_some, if_true, hv, if_pos hn, hpt, htl,
            List.map_cons]
        · have hpf : upcomingPred today days r = false := by
            rw [hpred]; exact decide_eq_false hn
          simp only [hbs, Option.isSome_some, if_true, hv, if_neg hn, hpf,
            Bool.false_eq_true, if_false, htl]

/-- C4 (amended): for every directory, current date and integer window,
PROVIDED the per-record day computation raises no exception (the Feb-29
advance, see `days_to_birthday_feb29_counterexample`, is the only failure
mode) and `today` is a valid date (it always is, being `datetime.now()`),
`get_upcoming_birthdays` returns exactly the records with a birthday whose
day count is at most the window, in the directory's insertion order; and a
negative window yields the empty sequence. -/
theorem upcoming_birthdays_spec (book : AddressBook) (today : PyDate) (days : Int)
    (htoday : validDate today.year today.month today.day = true)
    (hok : ∀ p ∈ book.data, ∃ v, (p.2).days_to_birthday today = .ok v) :
    book.get_upcoming_birthdays today days
      = .ok ((book.data.filter (fun p => upcomingPred today days p.2)).map Prod.snd) ∧
    (days < 0 → book.get_upcoming_birthdays today days = .ok []) := by
  have h1 := upcoming_go_spec today days book.data hok
  refine ⟨h1, fun hneg => ?_⟩
  have hfil : book.data.filter (fun p => upcomingPred today days p.2) = [] := by
    rw [List.filter_eq_nil_iff]
    intro p _ hp
    obtain ⟨n, hn, hle⟩ := upcomingPred_true hp
    have := days_to_birthday_nonneg htoday hn
    omega
  rw [AddressBook.get_upcoming_birthdays, h1, hfil]
  rfl

/-- Witness for `upcoming_birthdays_spec`: with today = 2026-12-18, a
December 25th birthday (exactly 7 days away) is included by window 7 while
a December 26th birthday (8 days away) is excluded, and a negative window
yields the empty list. -/
theorem upcoming_birthdays_spec_witness :
    (AddressBook.mk [("A", Record.mk "A" [] (some ⟨1990, 12, 25⟩)),
        ("B", Record.mk "B" [] (some ⟨1991, 12, 26⟩))]).get_upcoming_birthdays
        ⟨2026, 12, 18⟩ 7
      = .ok [Record.mk "A" [] (some ⟨1990, 12, 25⟩)] ∧
    (AddressBook.mk [("A", Record.mk "A" [] (some ⟨1990, 12, 25⟩))]).get_upcoming_birthdays
        ⟨2026, 12, 18⟩ (-3)
      = .ok [] := by
  constructor
  · have h := (upcoming_birthdays_spec
      (AddressBook.mk [("A", Record.mk "A" [] (some ⟨1990, 12, 25⟩)),
        ("B", Record.mk "B" [] (some ⟨1991, 12, 26⟩))])
      ⟨2026, 12, 18⟩ 7 (by decide)
      (fun p hp => by
        rcases List.mem_cons.mp hp with rfl | hp2
        · exact ⟨some 7, by decide⟩
        rcases List.mem_cons.mp hp2 with rfl | hp3
        · exact ⟨some 8, by decide⟩
        · cases hp3)).1
    rw [h]
    decide
  · exact (upcoming_birthdays_spec
      (AddressBook.mk [("A", Record.mk "A" [] (some ⟨1990, 12, 25⟩))])
      ⟨2026, 12, 18⟩ (-3) (by decide)
      (fun p hp => by
        rcases List.mem_cons.mp hp with rfl | hp2
        · exact ⟨some 7, by decide⟩
        · cases hp2)).2 (by decide)

/-- C4 counterexample: a directory containing a February 29th birthday,
with today = 2024-03-01 and the negative window `-1`.  The claim requires
an empty sequence; the code instead propagates the `ValueError` raised
inside `days_to_birthday` and returns nothing. -/
theorem upcoming_birthdays_error_counterexample :
    (AddressBook.mk [("Leap", Record.mk "Leap" [] (some ⟨1992, 2, 29⟩))]).get_upcoming_birthdays
        ⟨2024, 3, 1⟩ (-1)
      = .error ⟨.valueError, "day is out of range for month"⟩ := rfl

/-! ## Facts about searching the phone list -/

theorem find?_beq_of_mem {l : List String} {a : String} (h : a ∈ l) :
    l.find? (fun p => p == a) = some a := by
  rcases hf : l.find? (fun p => p == a) with _ | x
  · rw [List.find?_eq_none] at hf
    exact absurd (by simp) (hf a h)
  · have hx : x = a := by simpa using List.find?_some hf
    rw [hx]

theorem find?_beq_of_not_mem {l : List String} {a : String} (h : a ∉ l) :
    l.find? (fun p => p == a) = none := by
  rw [List.find?_eq_none]
  intro x hx hbeq
  have : x = a := by simpa using hbeq
  subst this
  exact h hx

/-! ## Claim C5: failed mutations leave the record unchanged -/

/-- C5: in each of `add_phone`, `add_birthday` and `edit_phone`, every
`raise` (field validation, and for `edit_phone` also the lookup of the old
value) happens before any assignment to the record's state, so whenever the
call raises, the record after the call equals the record before it. -/
theorem failed_mutation_leaves_record_unchanged (r : Record) (s b old new : String) :
    ((r.add_phone s).2.isSome → (r.add_phone s).1 = r) ∧
    ((r.add_birthday b).2.isSome → (r.add_birthday b).1 = r) ∧
    ((r.edit_phone old new).2.isSome → (r.edit_phone old new).1 = r) := by
  refine ⟨?_, ?_, ?_⟩
  · unfold Record.add_phone
    cases hv : validate_phone s <;> simp
  · unfold Record.add_birthday
    cases hv : validate_birthday b <;> simp
  · unfold Record.edit_phone
    cases hf : r.phones.find? (fun p => p == old)
    · simp
    · cases hv : validate_phone new <;> simp

/-- Witness for `failed_mutation_leaves_record_unchanged`: a too-short
phone, a malformed birthday and an absent old phone each leave the record
exactly as it was. -/
theorem failed_mutation_witness :
    ((Record.mk "John" ["0937777777"] none).add_phone "123").1
      = Record.mk "John" ["0937777777"] none ∧
    ((Record.mk "John" ["0937777777"] none).add_birthday "99.99.9999").1
      = Record.mk "John" ["0937777777"] none ∧
    ((Record.mk "John" ["0937777777"] none).edit_phone "1112223333" "0936666666").1
      = Record.mk "John" ["0937777777"] none :=
  ⟨(failed_mutation_leaves_record_unchanged (Record.mk "John" ["0937777777"] none)
      "123" "99.99.9999" "1112223333" "0936666666").1 (by decide),
   (failed_mutation_leaves_record_unchanged (Record.mk "John" ["0937777777"] none)
      "123" "99.99.9999" "1112223333" "0936666666").2.1 (by decide),
   (failed_mutation_leaves_record_unchanged (Record.mk "John" ["0937777777"] none)
      "123" "99.99.9999" "1112223333" "0936666666").2.2 (by decide)⟩

/-! ## Claim C6: `edit_phone` replaces in place -/

/-- C6: when `old` is absent the call fails with the not-found `ValueError`
and changes nothing; when `old` is present and `new` is a valid phone, the
call succeeds and the new phone list is the old one with the FIRST
occurrence of `old` overwritten in place: same length, `new` at that index,
every other index untouched (so relative order is preserved). -/
theorem edit_phone_spec (r : Record) (old new : String) :
    (old ∉ r.phones →
      r.edit_phone old new = (r, some ⟨.valueError, "Phone number not found."⟩)) ∧
    (old ∈ r.phones → validate_phone new = .ok new →
      (r.edit_phone old new).2 = none ∧
      (r.edit_phone old new).1.name = r.name ∧
      (r.edit_phone old new).1.birthday = r.birthday ∧
      (r.edit_phone old new).1.phones
        = r.phones.set (r.phones.findIdx (fun q => q == old)) new ∧
      r.phones.findIdx (fun q => q == old) < r.phones.length ∧
      r.phones[r.phones.findIdx (fun q => q == old)]? = some old ∧
      (∀ j, j < r.phones.findIdx (fun q => q == old) → r.phones[j]? ≠ some old) ∧
      (r.edit_phone old new).1.phones.length = r.phones.length ∧
      (∀ j, j ≠ r.phones.findIdx (fun q => q == old) →
        (r.edit_phone old new).1.phones[j]? = r.phones[j]?) ∧
      (r.edit_phone old new).1.phones[r.phones.findIdx (fun q => q == old)]?
        = some new) := by
  constructor
  · intro hmem
    unfold Record.edit_phone
    rw [find?_beq_of_not_mem hmem]
  · intro hmem hval
    have hred : r.edit_phone old new
        = ({ r with phones := r.phones.set (r.phones.findIdx (fun q => q == old)) new },
           none) := by
      unfold Record.edit_phone
      simp only [find?_beq_of_mem hmem, hval]
    have hlt : r.phones.findIdx (fun q => q == old) < r.phones.length :=
      List.findIdx_lt_length_of_exists ⟨old, hmem, by simp⟩
    have hgetIdx : r.phones[r.phones.findIdx (fun q => q == old)]? = some old := by
      rw [List.getElem?_eq_getElem hlt]
      have hp := @List.findIdx_getElem _ (fun q => q == old) r.phones hlt
      have hq := eq_of_beq hp
      rw [hq]
    refine ⟨by rw [hred], by rw [hred], by rw [hred], by rw [hred], hlt, hgetIdx,
      ?_, ?_, ?_, ?_⟩
    · intro j hj hcontra
      have hjlt : j < r.phones.length := Nat.lt_trans hj hlt
      rw [List.getElem?_eq_getElem hjlt] at hcontra
      have hje := Option.some.inj hcontra
      have hfalse := List.not_of_lt_findIdx hj
      rw [hje] at hfalse
      simp at hfalse
    · rw [hred]
      exact List.length_set r.phones _ _
    · intro j hj
      rw [hred]
      exact List.getElem?_set_ne (Ne.symm hj)
    · rw [hred]
      exact List.getElem?_set_self hlt

/-- Witness for `edit_phone_spec`: editing the 2nd of 3 phones replaces it
at position 1 and keeps the other phones, and editing an absent phone
fails with the not-found error and leaves the record unchanged. -/
theorem edit_phone_spec_witness :
    ((Record.mk "John" ["0937777777", "5555555555", "1111111111"] none).edit_phone
        "5555555555" "0936666666").2 = none ∧
    ((Record.mk "John" ["0937777777", "5555555555", "1111111111"] none).edit_phone
        "5555555555" "0936666666").1.phones
      = ["0937777777", "5555555555", "1111111111"].set
          (["0937777777", "5555555555", "1111111111"].findIdx (fun q => q == "5555555555"))
          "0936666666" ∧
    (Record.mk "John" ["0937777777"] none).edit_phone "2223334444" "0936666666"
      = (Record.mk "John" ["0937777777"] none,
         some ⟨.valueError, "Phone number not found."⟩) := by
  refine ⟨?_, ?_, ?_⟩
  · exact ((edit_phone_spec (Record.mk "John" ["0937777777", "5555555555", "1111111111"] none)
      "5555555555" "0936666666").2 (by decide) (by decide)).1
  · exact ((edit_phone_spec (Record.mk "John" ["0937777777", "5555555555", "1111111111"] none)
      "5555555555" "0936666666").2 (by decide) (by decide)).2.2.2.1
  · exact (edit_phone_spec (Record.mk "John" ["0937777777"] none)
      "2223334444" "0936666666").1 (by decide)

/-! ## Claim C9: the stored-phone invariant -/

/-- The constraint `Phone.__validate_phone` enforces: exactly 10 characters,
all of them digits in Python's `str.isdigit` sense. -/
def PhoneOk (s : String) : Prop := s.length = 10 ∧ pyStrIsDigit s = true

instance phoneOkDec : DecidablePred PhoneOk := fun s => by
  unfold PhoneOk; infer_instance

/-- Every phone stored in the record satisfies the phone constraint. -/
def RecordPhonesOk (r : Record) : Prop := ∀ p ∈ r.phones, PhoneOk p

instance recordPhonesOkDec (r : Record) : Decidable (RecordPhonesOk r) := by
  unfold RecordPhonesOk; infer_instance

theorem validate_phone_ok_PhoneOk {s p : String} (h : validate_phone s = .ok p) :
    PhoneOk p ∧ p = s := by
  unfold validate_phone at h
  split_ifs at h with h1 h2
  cases Except.ok.inj h
  refine ⟨⟨by omega, ?_⟩, rfl⟩
  cases hq : pyStrIsDigit s
  · exact absurd hq h2
  · rfl

/-- C9: a freshly constructed record satisfies the phone invariant, and
each of `add_phone`, `remove_phone` and `edit_phone` preserves it
(every entry placed into the list went through the `Phone` constructor),
regardless of whether the call succeeds or raises. -/
theorem record_phones_invariant (r : Record) (name s t old new : String) :
    RecordPhonesOk (mkRecord name) ∧
    (RecordPhonesOk r →
      RecordPhonesOk (r.add_phone s).1 ∧
      RecordPhonesOk (r.remove_phone t).1 ∧
      RecordPhonesOk (r.edit_phone old new).1) := by
  constructor
  · intro p hp
    cases hp
  · intro hok
    refine ⟨?_, ?_, ?_⟩
    · unfold Record.add_phone
      cases hv : validate_phone s
      · exact hok
      case ok p =>
        intro q hq
        rcases List.mem_append.mp hq with hq1 | hq2
        · exact hok q hq1
        · have hqp : q = p := by simpa using hq2
          subst hqp
          exact (validate_phone_ok_PhoneOk hv).1
    · unfold Record.remove_phone
      cases hf : r.phones.find? (fun p => p == t)
      · exact hok
      · intro q hq
        exact hok q (List.mem_of_mem_erase hq)
    · unfold Record.edit_phone
      cases hf : r.phones.find? (fun p => p == old)
      · exact hok
      · cases hv : validate_phone new
        · exact hok
        case ok p =>
          intro q hq
          rcases List.mem_or_eq_of_mem_set hq with hq1 | hqp
          · exact hok q hq1
          · subst hqp
            exact (validate_phone_ok_PhoneOk hv).1

/-- Witness for `record_phones_invariant`: starting from a record holding
one valid phone, adding, removing and editing all keep every stored phone
a 10-digit string. -/
theorem record_phones_invariant_witness :
    RecordPhonesOk ((Record.mk "John" ["0937777777"] none).add_phone "5555555555").1 ∧
    RecordPhonesOk ((Record.mk "John" ["0937777777"] none).remove_phone "0937777777").1 ∧
    RecordPhonesOk ((Record.mk "John" ["0937777777"] none).edit_phone
      "0937777777" "0936666666").1 :=
  (record_phones_invariant (Record.mk "John" ["0937777777"] none)
    "X" "5555555555" "0937777777" "0937777777" "0936666666").2 (by decide)

/-! ## Claim C7: directory `find` and `delete` -/

theorem eraseP_key_of_nodup (name : String) :
    ∀ l : List (String × Record), (l.map Prod.fst).Nodup →
      l.eraseP (fun p => p.1 == name) = l.filter (fun p => !(p.1 == name)) := by
  intro l
  induction l with
  | nil => intro _; rfl
  | cons hd tl ih =>
    intro hnd
    obtain ⟨k, v⟩ := hd
    rw [List.map_cons, List.nodup_cons] at hnd
    by_cases hk : k = name
    · subst hk
      rw [List.eraseP_cons_of_pos (by simp), List.filter_cons_of_neg (by simp)]
      refine (List.filter_eq_self.mpr fun a ha => ?_).symm
      have hne : a.1 ≠ k := by
        intro he
        exact hnd.1 (List.mem_map.mpr ⟨a, ha, he⟩)
      simp [hne]
    · rw [List.eraseP_cons_of_neg (by simp [hk]), List.filter_cons_of_pos (by simp [hk])]
      rw [ih hnd.2]

theorem find?_key_of_mem_nodup {name : String} {r : Record} :
    ∀ l : List (String × Record), (l.map Prod.fst).Nodup → (name, r) ∈ l →
      l.find? (fun p => p.1 == name) = some (name, r) := by
  intro l
  induction l with
  | nil => intro _ h; cases h
  | cons hd tl ih =>
    intro hnd hmem
    obtain ⟨k, v⟩ := hd
    rw [List.map_cons, List.nodup_cons] at hnd
    rcases List.mem_cons.mp hmem with heq | hmem2
    · injection heq.symm with h1 h2
      subst h1
      subst h2
      exact List.find?_cons_of_pos _ (by simp)
    · have hkeys : name ∈ tl.map Prod.fst := List.mem_map_of_mem Prod.fst hmem2
      have hkf : (k == name) = false := by
        rcases hq : (k == name) with _ | _
        · rfl
        · have hke : k = name := by simpa using hq
          subst hke
          exact absurd hkeys hnd.1
      simp only [List.find?_cons, hkf]
      exact ih hnd.2 hmem2

/-- C7: over a directory with unique names (as a Python dict guarantees):
`delete` fails with the not-found `ValueError` exactly when the name is
absent and otherwise succeeds, removing that entry and leaving every other
entry — and their order — unchanged; after a successful `delete`, `find` of
the same name fails with the not-found error; and `find` returns `r`
exactly when `(name, r)` is stored. -/
theorem book_find_delete_spec (book : AddressBook) (name : String)
    (hnd : (book.data.map Prod.fst).Nodup) :
    (book.data.any (fun p => p.1 == name) = false →
      book.delete name = (book, some ⟨.valueError, "Record not found."⟩) ∧
      book.find name = .error ⟨.valueError, "Record not found."⟩) ∧
    (book.data.any (fun p => p.1 == name) = true →
      (book.delete name).2 = none ∧
      (book.delete name).1.data = book.data.filter (fun p => !(p.1 == name)) ∧
      (book.delete name).1.find name = .error ⟨.valueError, "Record not found."⟩) ∧
    (∀ r : Record, book.find name = .ok r ↔ (name, r) ∈ book.data) := by
  refine ⟨fun habs => ⟨?_, ?_⟩, fun hpres => ?_, fun r => ⟨?_, ?_⟩⟩
  · unfold AddressBook.delete
    rw [if_neg (by simp [habs])]
  · have hnone : book.data.find? (fun p => p.1 == name) = none :=
      List.find?_eq_none.mpr (List.any_eq_false.mp habs)
    unfold AddressBook.find
    rw [hnone]
  · have hdel : book.delete name = (⟨book.data.eraseP (fun p => p.1 == name)⟩, none) := by
      unfold AddressBook.delete
      rw [if_pos hpres]
    have hfil := eraseP_key_of_nodup name book.data hnd
    refine ⟨by rw [hdel], by rw [hdel]; exact hfil, ?_⟩
    rw [hdel]
    have hnone : (book.data.eraseP (fun p => p.1 == name)).find?
        (fun p => p.1 == name) = none := by
      rw [hfil]
      refine List.find?_eq_none.mpr fun x hx => ?_
      have hxf := (List.mem_filter.mp hx).2
      simp only [Bool.not_eq_true'] at hxf
      simp [hxf]
    unfold AddressBook.find
    rw [hnone]
  · intro hok
    unfold AddressBook.find at hok
    rcases hf : book.data.find? (fun p => p.1 == name) with _ | p <;> rw [hf] at hok
    · cases hok
    · have hp1 : p.1 = name := by simpa using List.find?_some hf
      have hp2 : p.2 = r := Except.ok.inj hok
      have hpm := List.mem_of_find?_eq_some hf
      rw [← hp1, ← hp2]
      exact hpm
  · intro hmem
    unfold AddressBook.find
    rw [find?_key_of_mem_nodup book.data hnd hmem]

/-- Witness for `book_find_delete_spec`: a two-entry directory; deleting
"Jane" removes exactly her entry and a subsequent `find "Jane"` fails,
`find "John"` still returns his record, and deleting an absent name fails
with the not-found error. -/
theorem book_find_delete_spec_witness :
    ((AddressBook.mk [("John", Record.mk "John" ["0937777777"] none),
        ("Jane", Record.mk "Jane" ["9876543210"] none)]).delete "Jane").1.data
      = [("John", Record.mk "John" ["0937777777"] none)] ∧
    ((AddressBook.mk [("John", Record.mk "John" ["0937777777"] none),
        ("Jane", Record.mk "Jane" ["9876543210"] none)]).delete "Jane").1.find "Jane"
      = .error ⟨.valueError, "Record not found."⟩ ∧
    (AddressBook.mk [("John", Record.mk "John" ["0937777777"] none),
        ("Jane", Record.mk "Jane" ["9876543210"] none)]).find "John"
      = .ok (Record.mk "John" ["0937777777"] none) ∧
    (AddressBook.mk [("John", Record.mk "John" ["0937777777"] none),
        ("Jane", Record.mk "Jane" ["9876543210"] none)]).delete "Vova"
      = (AddressBook.mk [("John", Record.mk "John" ["0937777777"] none),
          ("Jane", Record.mk "Jane" ["9876543210"] none)],
         some ⟨.valueError, "Record not found."⟩) := by
  refine ⟨?_, ?_, ?_, ?_⟩
  · have h := ((book_find_delete_spec
      (AddressBook.mk [("John", Record.mk "John" ["0937777777"] none),
        ("Jane", Record.mk "Jane" ["9876543210"] none)]) "Jane" (by decide)).2.1
      (by decide)).2.1
    rw [h]
    decide
  · exact ((book_find_delete_spec
      (AddressBook.mk [("John", Record.mk "John" ["0937777777"] none),
        ("Jane", Record.mk "Jane" ["9876543210"] none)]) "Jane" (by decide)).2.1
      (by decide)).2.2
  · exact ((book_find_delete_spec
      (AddressBook.mk [("John", Record.mk "John" ["0937777777"] none),
        ("Jane", Record.mk "Jane" ["9876543210"] none)]) "John" (by decide)).2.2
      (Record.mk "John" ["0937777777"] none)).mpr (by decide)
  · exact ((book_find_delete_spec
      (AddressBook.mk [("John", Record.mk "John" ["0937777777"] none),
        ("Jane", Record.mk "Jane" ["9876543210"] none)]) "Vova" (by decide)).1
      (by decide)).1

/-! ## Claim C10: every failure is a `ValueError` -/

theorem validate_phone_error_kind {s : String} {e : PyError}
    (h : validate_phone s = .error e) : e.kind = ExnKind.valueError := by
  unfold validate_phone at h
  split_ifs at h <;> cases Except.error.inj h <;> rfl

theorem validate_birthday_error_kind {s : String} {e : PyError}
    (h : validate_birthday s = .error e) : e.kind = ExnKind.valueError := by
  unfold validate_birthday at h
  rcases hp : parse_ddmmyyyy s with _ | ⟨d, m, y⟩ <;> simp only [hp] at h
  · cases Except.error.inj h
    rfl
  · rcases hm : mkDate y m d with e1 | dt <;> simp only [hm] at h
    · cases Except.error.inj h
      rfl
    · cases h

/-- C10 (implicit): every failure of the public interface — phone and
birthday validation, `find_phone`/`remove_phone`/`edit_phone` on an absent
phone, and directory `find`/`delete` on an absent name — is raised as the
single exception class `ValueError`, so exception type alone cannot
distinguish a validation failure from a not-found failure. -/
theorem all_failures_valueError (s t old new : String) (r : Record)
    (book : AddressBook) (e : PyError) :
    (validate_phone s = .error e → e.kind = ExnKind.valueError) ∧
    (validate_birthday s = .error e → e.kind = ExnKind.valueError) ∧
    (r.find_phone t = .error e → e.kind = ExnKind.valueError) ∧
    ((r.remove_phone t).2 = some e → e.kind = ExnKind.valueError) ∧
    ((r.edit_phone old new).2 = some e → e.kind = ExnKind.valueError) ∧
    (book.find t = .error e → e.kind = ExnKind.valueError) ∧
    ((book.delete t).2 = some e → e.kind = ExnKind.valueError) := by
  refine ⟨fun h => validate_phone_error_kind h, fun h => validate_birthday_error_kind h,
    ?_, ?_, ?_, ?_, ?_⟩
  · unfold Record.find_phone
    cases hf : r.phones.find? (fun p => p == t)
    · intro h
      cases Except.error.inj h
      rfl
    · intro h
      cases h
  · unfold Record.remove_phone
    cases hf : r.phones.find? (fun p => p == t)
    · intro h
      cases Option.some.inj h
      rfl
    · intro h
      cases h
  · unfold Record.edit_phone
    cases hf : r.phones.find? (fun p => p == old)
    · intro h
      cases Option.some.inj h
      rfl
    · cases hv : validate_phone new
      · intro h
        cases Option.some.inj h
        exact validate_phone_error_kind hv
      · intro h
        cases h
  · unfold AddressBook.find
    cases hf : book.data.find? (fun p => p.1 == t)
    · intro h
      cases Except.error.inj h
      rfl
    · intro h
      cases h
  · unfold AddressBook.delete
    by_cases hmem : book.data.any (fun p => p.1 == t) = true
    · rw [if_pos hmem]
      intro h
      cases h
    · rw [if_neg hmem]
      intro h
      cases Option.some.inj h
      rfl

/-- Witness for `all_failures_valueError`: a phone-validation failure and a
directory-lookup failure carry the same exception class. -/
theorem all_failures_valueError_witness :
    (⟨ExnKind.valueError, "The phone number must contain 10 digits"⟩ : PyError).kind
      = ExnKind.valueError ∧
    (⟨ExnKind.valueError, "Record not found."⟩ : PyError).kind = ExnKind.valueError :=
  ⟨(all_failures_valueError "123" "x" "o" "n" (mkRecord "R") (AddressBook.mk [])
      ⟨ExnKind.valueError, "The phone number must contain 10 digits"⟩).1 rfl,
   (all_failures_valueError "123" "x" "o" "n" (mkRecord "R") (AddressBook.mk [])
      ⟨ExnKind.valueError, "Record not found."⟩).2.2.2.2.2.1 rfl⟩

/-! ## Claim C8: decimal printing and the parse/format round trip -/

theorem digitChar_isDigit : ∀ n : Nat, (digitChar n).isDigit = true := by
  intro n
  unfold digitChar
  split <;> rfl

theorem digitChar_val : ∀ n : Nat, n < 10 → pyDigitVal (digitChar n) = n := by decide

theorem strToNat_append (cs : List Char) (c : Char) :
    strToNat (cs ++ [c]) = strToNat cs * 10 + pyDigitVal c := by
  unfold strToNat
  rw [List.foldl_append]
  rfl

theorem natToChars_lt {n : Nat} (h : n < 10) : natToChars n = [digitChar n] := by
  unfold natToChars
  simp [h]

theorem natToChars_ge {n : Nat} (h : ¬ n < 10) :
    natToChars n = natToChars (n / 10) ++ [digitChar (n % 10)] := by
  conv_lhs => rw [natToChars]
  simp [h]

theorem natToChars_all_digit : ∀ n : Nat, ∀ c ∈ natToChars n, c.isDigit = true := by
  intro n
  induction n using Nat.strong_induction_on with
  | _ n ih =>
    by_cases h : n < 10
    · rw [natToChars_lt h]
      intro c hc
      have hcd : c = digitChar n := by simpa using hc
      subst hcd
      exact digitChar_isDigit n
    · rw [natToChars_ge h]
      intro c hc
      rcases List.mem_append.mp hc with h1 | h2
      · exact ih (n / 10) (Nat.div_lt_self (by omega) (by omega)) c h1
      · have hcd : c = digitChar (n % 10) := by simpa using h2
        subst hcd
        exact digitChar_isDigit _

theorem strToNat_natToChars : ∀ n : Nat, strToNat (natToChars n) = n := by
  intro n
  induction n using Nat.strong_induction_on with
  | _ n ih =>
    by_cases h : n < 10
    · rw [natToChars_lt h]
      have hval := digitChar_val n h
      unfold strToNat
      simp only [List.foldl_cons, List.foldl_nil]
      omega
    · rw [natToChars_ge h, strToNat_append]
      rw [ih (n / 10) (Nat.div_lt_self (by omega) (by omega))]
      have hval := digitChar_val (n % 10) (Nat.mod_lt _ (by omega))
      omega

theorem natToChars_len_succ {n : Nat} (h : ¬ n < 10) :
    (natToChars n).length = (natToChars (n / 10)).length + 1 := by
  rw [natToChars_ge h]
  simp

theorem natToChars_len4 {y : Nat} (h1 : 1000 ≤ y) (h2 : y ≤ 9999) :
    (natToChars y).length = 4 := by
  have ha : ¬ y < 10 := by omega
  have hb : ¬ y / 10 < 10 := by omega
  have hc : ¬ y / 10 / 10 < 10 := by omega
  have hd : y / 10 / 10 / 10 < 10 := by omega
  rw [natToChars_len_succ ha, natToChars_len_succ hb, natToChars_len_succ hc,
    natToChars_lt hd]
  rfl

theorem pad2_len {n : Nat} (h : n ≤ 99) : (pad2 n).length = 2 := by
  unfold pad2
  by_cases hn : n < 10
  · rw [if_pos hn]
    rfl
  · rw [if_neg hn]
    rw [natToChars_len_succ hn, natToChars_lt (by omega)]
    rfl

theorem pad2_all_digit (n : Nat) : ∀ c ∈ pad2 n, c.isDigit = true := by
  unfold pad2
  by_cases hn : n < 10
  · rw [if_pos hn]
    intro c hc
    rcases List.mem_cons.mp hc with rfl | hc2
    · rfl
    · have hcd : c = digitChar n := by simpa using hc2
      subst hcd
      exact digitChar_isDigit n
  · rw [if_neg hn]
    exact natToChars_all_digit n

theorem strToNat_pad2 (n : Nat) : strToNat (pad2 n) = n := by
  unfold pad2
  by_cases hn : n < 10
  · rw [if_pos hn]
    have hval := digitChar_val n hn
    have h0 : pyDigitVal '0' = 0 := rfl
    unfold strToNat
    simp only [List.foldl_cons, List.foldl_nil]
    rw [h0]
    omega
  · rw [if_neg hn]
    exact strToNat_natToChars n

theorem not_dot_of_all_digit {l : List Char} (h : ∀ c ∈ l, c.isDigit = true) :
    '.' ∉ l := by
  intro hmem
  exact absurd (h _ hmem) (by decide)

theorem splitOnDot_append {xs l : List Char} {h : List Char} {t : List (List Char)}
    (hx : '.' ∉ xs) (hl : splitOnDot l = h :: t) :
    splitOnDot (xs ++ l) = (xs ++ h) :: t := by
  induction xs with
  | nil => simpa using hl
  | cons c cs ih =>
    have hc : c ≠ '.' := by
      intro he
      apply hx
      rw [← he]
      exact List.mem_cons_self c cs
    have hxs : '.' ∉ cs := fun hm => hx (List.mem_cons_of_mem c hm)
    show splitOnDot (c :: (cs ++ l)) = (c :: (cs ++ h)) :: t
    unfold splitOnDot
    rw [if_neg hc, ih hxs]

theorem splitOnDot_nodot {xs : List Char} (hx : '.' ∉ xs) : splitOnDot xs = [xs] := by
  have h2 := splitOnDot_append hx (show splitOnDot [] = [] :: [] from rfl)
  simpa using h2

theorem splitOnDot_dot_cons (l : List Char) :
    splitOnDot ('.' :: l) = [] :: splitOnDot l := by
  rw [splitOnDot]
  rw [if_pos rfl]

theorem splitOnDot_three {A B C : List Char}
    (hA : '.' ∉ A) (hB : '.' ∉ B) (hC : '.' ∉ C) :
    splitOnDot (A ++ '.' :: (B ++ '.' :: C)) = [A, B, C] := by
  have h1 := splitOnDot_dot_cons C
  rw [splitOnDot_nodot hC] at h1
  have h2 := splitOnDot_append hB h1
  rw [List.append_nil] at h2
  have h3 := splitOnDot_dot_cons (B ++ '.' :: C)
  rw [h2] at h3
  have h4 := splitOnDot_append hA h3
  rw [List.append_nil] at h4
  exact h4

theorem daysInMonth_le (y m : Nat) : daysInMonth y m ≤ 31 := by
  unfold daysInMonth daysInMonthB
  split
  · split <;> omega
  all_goals omega

theorem pyCharIsDecimal_of_isDigit {c : Char} (h : c.isDigit = true) :
    pyCharIsDecimal c = true := by
  unfold pyCharIsDecimal
  rw [h]
  rfl

theorem digitChar_one_nine : ∀ n : Nat, n < 10 → 1 ≤ n →
    ('1' ≤ digitChar n ∧ digitChar n ≤ '9') := by decide

theorem dayField_two : ∀ a : Nat, a < 4 → ∀ b : Nat, b < 10 → 1 ≤ a → (a = 3 → b ≤ 1) →
    dayField [digitChar a, digitChar b] = true := by decide

theorem monthField_two : ∀ b : Nat, b < 3 →
    monthField [digitChar 1, digitChar b] = true := by decide

theorem dayField_pad2 {d : Nat} (h1 : 1 ≤ d) (h2 : d ≤ 31) :
    dayField (pad2 d) = true := by
  unfold pad2
  by_cases hd : d < 10
  · rw [if_pos hd]
    have h3 := digitChar_one_nine d hd h1
    show dayField ['0', digitChar d] = true
    simp only [dayField, Bool.or_eq_true, Bool.and_eq_true, decide_eq_true_eq]
    exact Or.inr ⟨trivial, h3.1, h3.2⟩
  · rw [if_neg hd]
    rw [natToChars_ge hd, natToChars_lt (show d / 10 < 10 by omega)]
    show dayField [digitChar (d / 10), digitChar (d % 10)] = true
    exact dayField_two (d / 10) (by omega) (d % 10) (by omega) (by omega)
      (fun h3 => by omega)

theorem monthField_pad2 {m : Nat} (h1 : 1 ≤ m) (h2 : m ≤ 12) :
    monthField (pad2 m) = true := by
  unfold pad2
  by_cases hm : m < 10
  · rw [if_pos hm]
    have h3 := digitChar_one_nine m hm h1
    show monthField ['0', digitChar m] = true
    simp only [monthField, Bool.or_eq_true, Bool.and_eq_true, decide_eq_true_eq]
    right
    exact ⟨trivial, h3.1, h3.2⟩
  · rw [if_neg hm]
    rw [natToChars_ge hm, natToChars_lt (show m / 10 < 10 by omega)]
    have hq : m / 10 = 1 := by omega
    show monthField [digitChar (m / 10), digitChar (m % 10)] = true
    rw [hq]
    exact monthField_two (m % 10) (by omega)

theorem yearField_natToChars {y : Nat} (h1 : 1000 ≤ y) (h2 : y ≤ 9999) :
    yearField (natToChars y) = true := by
  unfold yearField
  simp only [Bool.and_eq_true, decide_eq_true_eq, List.all_eq_true]
  exact ⟨natToChars_len4 h1 h2,
    fun c hc => pyCharIsDecimal_of_isDigit (natToChars_all_digit y c hc)⟩

/-- C8: for every valid calendar date with a four-digit year (1000..9999),
building the input string from the zero-padded two-digit day and month and
the year, `Birthday` parses it back to exactly that date, and the record
rendering's `strftime("%d.%m.%Y")` (`formatDate`) produces exactly that
string again — the round trip is the identity. -/
theorem birthday_roundtrip (d m y : Nat)
    (hv : validDate y m d = true) (hy1 : 1000 ≤ y) (hy2 : y ≤ 9999) :
    validate_birthday (String.mk (pad2 d ++ '.' :: (pad2 m ++ '.' :: natToChars y)))
      = .ok ⟨y, m, d⟩ ∧
    formatDate ⟨y, m, d⟩
      = String.mk (pad2 d ++ '.' :: (pad2 m ++ '.' :: natToChars y)) := by
  have hvv := hv
  simp only [validDate, decide_eq_true_eq] at hvv
  obtain ⟨hylo, hyhi, hmlo, hmhi, hdlo, hdhi⟩ := hvv
  have hdim := daysInMonth_le y m
  have hsp : splitOnDot (String.mk (pad2 d ++ '.' :: (pad2 m ++ '.' :: natToChars y))).data
      = [pad2 d, pad2 m, natToChars y] :=
    splitOnDot_three (not_dot_of_all_digit (pad2_all_digit d))
      (not_dot_of_all_digit (pad2_all_digit m))
      (not_dot_of_all_digit (natToChars_all_digit y))
  have c1 : dayField (pad2 d) = true := dayField_pad2 (by omega) (by omega)
  have c2 : monthField (pad2 m) = true := monthField_pad2 (by omega) (by omega)
  have c3 : yearField (natToChars y) = true := yearField_natToChars hy1 hy2
  have hparse : parse_ddmmyyyy (String.mk (pad2 d ++ '.' :: (pad2 m ++ '.' :: natToChars y)))
      = some (d, m, y) := by
    unfold parse_ddmmyyyy
    simp only [hsp]
    rw [if_pos]
    · have e1 : strToNat (pad2 d) = d := strToNat_pad2 d
      have e2 : strToNat (pad2 m) = m := strToNat_pad2 m
      rw [e1, e2, strToNat_natToChars]
    · simp only [Bool.and_eq_true]
      exact ⟨⟨c1, c2⟩, c3⟩
  refine ⟨?_, rfl⟩
  unfold validate_birthday
  simp only [hparse, mkDate_of_valid hv]

/-- Witness for `birthday_roundtrip` at December 25th, 1990 (the input
string built by the round trip is `"25.12.1990"`). -/
theorem birthday_roundtrip_witness :
    validate_birthday (String.mk (pad2 25 ++ '.' :: (pad2 12 ++ '.' :: natToChars 1990)))
      = .ok ⟨1990, 12, 25⟩ ∧
    formatDate ⟨1990, 12, 25⟩
      = String.mk (pad2 25 ++ '.' :: (pad2 12 ++ '.' :: natToChars 1990)) :=
  ⟨(birthday_roundtrip 25 12 1990 (by decide) (by decide) (by decide)).1,
   (birthday_roundtrip 25 12 1990 (by decide) (by decide) (by decide)).2⟩

end TaskOne
